import Mathlib

/-!
Shallow embedding of the Exegol-Session-Viewer core
(`src/exegolsessionsviewer.py`): the recording parser/normalizer
(`convert_to_cast`), session-duration computation, range extraction
(`/extract` route and the MP4-extract event pipeline), Output search,
the frame-selection loop of the video-assembly worker, its fps
computation and its exception handling, and the `/processing` /
`/progress` job-dispatch logic.

Modelling conventions:
* Python JSON values (`json.loads` results) are the inductive `Json`;
  numbers are rationals (exact model of the arithmetic the code does).
* A raw text line is modelled by the observations the code makes of it:
  whether `line.strip()` is empty, whether `line.strip()` /
  `line` itself starts with `"["`, and the result of `json.loads(line)`
  (`none` = the call raises).  `json.dumps` of a value `j` yields a line
  whose observations are `lineOfJson j` (non-blank, starts with `"["`
  exactly when `j` is an array, and `json.loads` returns `j` back).
* Fallible Python code is embedded in `Except String`; an uncaught
  exception is `.error msg`.
* Python `str.lower` is modelled by `String.toLower`, and
  `hash(str(screen.display))` equality by equality of the display
  string itself (equal strings always hash equal in one process).
-/

namespace ESV

/-- JSON values as produced by `json.loads`. -/
inductive Json where
  | null
  | bool (b : Bool)
  | num (q : ℚ)
  | str (s : String)
  | arr (elems : List Json)
  | obj (fields : List (String × Json))
deriving Repr

/-- Whether a JSON value is an array (`isinstance(evt, list)` in Python,
and also: `json.dumps` of it starts with the `"["` marker). -/
def Json.isArr : Json → Bool
  | .arr _ => true
  | _ => false

/-- Python numeric coercion for arithmetic and comparisons:
JSON numbers are numbers, JSON booleans behave as 0/1 in Python
arithmetic; everything else raises. -/
def toNum? : Json → Option ℚ
  | .num q => some q
  | .bool b => some (if b then 1 else 0)
  | _ => none

/-- A raw text line of a recording file, modelled by the observations the
source code makes of it: blankness of `line.strip()`, the `startswith("[")`
tests on the stripped and on the raw line, and the result of
`json.loads(line)` (`none` when the call raises). -/
structure Line where
  blank : Bool
  bracketStripped : Bool
  bracketRaw : Bool
  loads : Option Json
deriving Repr

/-- Coherence of a modelled line with a real text line: a blank line
cannot start with `"["`, stripped or raw. -/
def Line.wf (l : Line) : Prop :=
  l.blank = true → l.bracketStripped = false ∧ l.bracketRaw = false

/-- The line `json.dumps(j)` produces: non-blank, starts with `"["`
exactly when `j` is an array, and `json.loads` of it gives `j` back. -/
def lineOfJson (j : Json) : Line :=
  { blank := false
    bracketStripped := j.isArr
    bracketRaw := j.isArr
    loads := some j }

/-- First-match association lookup in a JSON object's field list
(Python dicts decoded from JSON have unique keys, so first match is the
match). -/
def lookupField (fields : List (String × Json)) (k : String) : Option Json :=
  (fields.find? (fun p => p.1 = k)).map (fun p => p.2)

/-- Python `base.update(upd)`: existing keys keep their position and take
`upd`'s value; keys of `upd` not in `base` are appended in `upd`'s order. -/
def dictUpdate (base upd : List (String × Json)) : List (String × Json) :=
  base.map (fun p => (p.1, (lookupField upd p.1).getD p.2)) ++
    upd.filter (fun p => (lookupField base p.1).isNone)

/-- The default header fields built in `convert_to_cast`
(src/exegolsessionsviewer.py:1835-1841); `mtime` is
`os.path.getmtime(path)`. -/
def defaultHeaderFields (mtime : ℚ) : List (String × Json) :=
  [("version", .num 2), ("width", .num 100), ("height", .num 30),
   ("timestamp", .num mtime),
   ("env", .obj [("TERM", .str "xterm"), ("SHELL", .str "/bin/bash")])]

/-- The normalized `.cast` file written by `convert_to_cast`: the header
line's JSON value (`none` when the source file was empty and nothing at
all was written) and the event lines' JSON values. -/
structure CastFile where
  header : Option Json
  events : List Json
deriving Repr

/-- Event-line filter of `convert_to_cast`
(src/exegolsessionsviewer.py:1855-1862): process the line only when
`line.strip().startswith("[")`, then `json.loads` it and keep it when it
is a list of length at least 3; any failure skips the line. -/
def eventOfLine? (l : Line) : Option Json :=
  if l.bracketStripped then
    match l.loads with
    | some j =>
        match j with
        | .arr xs => if 3 ≤ xs.length then some (.arr xs) else none
        | _ => none
    | none => none
  else none

/-- Header computed by `convert_to_cast`
(src/exegolsessionsviewer.py:1835-1848): defaults, updated by the parsed
first line only when that parses to a dict containing a `"version"` key. -/
def headerOfLine (mtime : ℚ) (l : Line) : Json :=
  match l.loads with
  | some (.obj fields) =>
      if (lookupField fields "version").isSome then
        .obj (dictUpdate (defaultHeaderFields mtime) fields)
      else
        .obj (defaultHeaderFields mtime)
  | _ => .obj (defaultHeaderFields mtime)

/-- The parser/normalizer `convert_to_cast`
(src/exegolsessionsviewer.py:1821-1869).  An empty input file returns an
empty output file (no header line is written). -/
def convert_to_cast (mtime : ℚ) (lines : List Line) : CastFile :=
  match lines with
  | [] => { header := none, events := [] }
  | headerLine :: rest =>
      { header := some (headerOfLine mtime headerLine)
        events := rest.filterMap eventOfLine? }

/-- The text lines of a written `CastFile` (each value is written with
`json.dumps` on its own line). -/
def castLines (c : CastFile) : List Line :=
  match c.header with
  | none => []
  | some h => lineOfJson h :: c.events.map lineOfJson

/-- Whether `needle` occurs as a contiguous run inside `hay`
(Python `needle in hay` on lists of characters). -/
def listContains (needle hay : List Char) : Bool :=
  match hay with
  | [] => needle.isEmpty
  | _ :: rest => needle.isPrefixOf hay || listContains needle rest

/-- Case-insensitive containment test of the search route:
`query.lower() in payload.lower()`
(src/exegolsessionsviewer.py:1773); `str.lower` is modelled
character-wise by `Char.toLower`. -/
def matchCI (query payload : String) : Bool :=
  listContains (query.toList.map Char.toLower) (payload.toList.map Char.toLower)

/-- Excerpt built for a search hit: the payload truncated to 100
characters with an ellipsis marker when longer
(src/exegolsessionsviewer.py:1777). -/
def excerptOf (s : String) : String :=
  if 100 < s.length then ⟨s.toList.take 100⟩ ++ "..." else s

/-- One search hit: the matched Output event's raw timestamp value and
its (possibly truncated) payload. -/
structure SearchHit where
  timestamp : Json
  content : String
deriving Repr

/-- The search response: the ordered hits, and whether the route answered
through its outer exception handler (file unreadable / no header line). -/
structure SearchOut where
  results : List SearchHit
  isError : Bool
deriving Repr

/-- Output-event filter of the search loop
(src/exegolsessionsviewer.py:1766-1771): a body line contributes an event
exactly when its stripped text starts with `"["`, it parses, and the
value is a list of length at least 3 whose second element is the string
`"o"`. -/
def searchEventOf? (l : Line) : Option (List Json) :=
  if l.bracketStripped then
    match l.loads with
    | some (.arr xs) =>
        if 3 ≤ xs.length then
          match xs.get? 1 with
          | some (.str k) => if k = "o" then some xs else none
          | _ => none
        else none
    | _ => none
  else none

/-- Hit produced from one collected Output event, if any
(src/exegolsessionsviewer.py:1772-1779): a non-string payload raises
`AttributeError` at `.lower()`, which the per-line handler swallows. -/
def hitOf? (query : String) (xs : List Json) : Option SearchHit :=
  match xs.get? 2 with
  | some (.str payload) =>
      if matchCI query payload then
        some { timestamp := (xs.get? 0).getD .null, content := excerptOf payload }
      else none
  | _ => none

/-- The `/search` route (src/exegolsessionsviewer.py:1749-1790), as a
function of the query and the lines of the converted `.cast` file: an
empty query short-circuits to an empty result; a missing or unparseable
header line answers through the outer handler with empty results. -/
def search (query : String) (lines : List Line) : SearchOut :=
  if query = "" then { results := [], isError := false }
  else
    match lines with
    | [] => { results := [], isError := true }
    | l0 :: rest =>
        match l0.loads with
        | none => { results := [], isError := true }
        | some _ =>
            { results := (rest.filterMap searchEventOf?).filterMap (hitOf? query)
              isError := false }

/-- Timestamp collected per line by `get_session_duration`
(src/exegolsessionsviewer.py:1799-1806): `evt[0]` of every stripped-`"["`
line parsing to a list of length at least 3. -/
def durTimeOf? (l : Line) : Option Json :=
  (eventOfLine? l).bind (fun j =>
    match j with
    | .arr xs => xs.get? 0
    | _ => none)

/-- The session-duration computation `get_session_duration`
(src/exegolsessionsviewer.py:1792-1812): skip the first line, collect the
timestamps of parseable event lines, return `events[-1] - events[0]` when
there are at least two, else 0; every exception (unreadable file, or a
non-numeric subtraction) is caught and yields 0. `fileOk = false` models
a read failure. -/
def get_session_duration (fileOk : Bool) (lines : List Line) : ℚ :=
  if fileOk then
    let ts := (lines.drop 1).filterMap durTimeOf?
    if 2 ≤ ts.length then
      match toNum? ((ts.getLast?).getD .null), toNum? ((ts.head?).getD .null) with
      | some b, some a => b - a
      | _, _ => 0
    else 0
  else 0

/-- Time of an event value: `e[0]` under Python numeric coercion
(`none` when accessing or comparing it would raise). -/
def evTime? : Json → Option ℚ
  | .arr (x :: _) => toNum? x
  | _ => none

/-- Replace an event array's time with a number (`e[0] -= offset` leaves
the rest of the array untouched). -/
def setTime (t : ℚ) : Json → Json
  | .arr (_ :: rest) => .arr (.num t :: rest)
  | j => j

/-- Body-line reader shared by the `/extract` route and the MP4 workers
(src/exegolsessionsviewer.py:1686,1961,2102): keep lines with
`l.strip() and l.startswith("[")` (non-blank, raw text starts with
`"["`) and `json.loads` each kept line with no per-line handler, so a
kept line that fails to parse raises out of the whole operation. -/
def loadBody : List Line → Except String (List Json)
  | [] => .ok []
  | l :: rest =>
      if !l.blank && l.bracketRaw then
        match l.loads with
        | none => .error "json decode error"
        | some j =>
            match loadBody rest with
            | .error m => .error m
            | .ok tail => .ok (j :: tail)
      else loadBody rest

/-- Range filter `[e for e in body if start <= e[0] <= end]`
(src/exegolsessionsviewer.py:1687,2103): comparing a non-numeric `e[0]`
raises `TypeError` out of the whole operation. -/
def filterRangeE (s e : ℚ) : List Json → Except String (List Json)
  | [] => .ok []
  | j :: rest =>
      match evTime? j with
      | none => .error "TypeError"
      | some t =>
          match filterRangeE s e rest with
          | .error m => .error m
          | .ok tail => .ok (if s ≤ t ∧ t ≤ e then j :: tail else tail)

/-- Output of the `/extract` route: the (verbatim-copied) header line and
the filtered, unshifted event values written below it. -/
structure ExtractOut where
  headerLine : Line
  events : List Json
deriving Repr

/-- The `/extract` route (src/exegolsessionsviewer.py:1678-1694): copy
the first line verbatim, keep body events whose time lies in
`[s, e]`, and write them back unchanged — no time shift is applied.
An empty file raises (`lines[0]`). -/
def extract (s e : ℚ) (lines : List Line) : Except String ExtractOut :=
  match lines with
  | [] => .error "IndexError"
  | l0 :: rest =>
      match loadBody rest with
      | .error m => .error m
      | .ok body =>
          match filterRangeE s e body with
          | .error m => .error m
          | .ok filtered => .ok { headerLine := l0, events := filtered }

/-- Time shift of the MP4-extract pipeline
(src/exegolsessionsviewer.py:2104-2107): subtract the first retained
event's time from every retained event's time. -/
def shiftExtract (evs : List Json) : List Json :=
  match evs.head?.bind evTime? with
  | none => evs
  | some off =>
      evs.map (fun j =>
        match evTime? j with
        | some t => setTime (t - off) j
        | none => j)

/-- Event pipeline of `convert_cast_to_mp4_progress_extract`
(src/exegolsessionsviewer.py:2099-2107): read the body events, filter to
the requested range, then shift times down by the first retained event's
time. -/
def mp4ExtractEvents (s e : ℚ) (lines : List Line) : Except String (List Json) :=
  match lines with
  | [] => .error "IndexError"
  | _ :: rest =>
      match loadBody rest with
      | .error m => .error m
      | .ok body =>
          match filterRangeE s e body with
          | .error m => .error m
          | .ok filtered => .ok (shiftExtract filtered)

/-- A progress side record `{"progress": p, "done": d, "text": t}` as
written next to the output artifact (src/exegolsessionsviewer.py:2015,
2033, 2052, 2056, 2060). -/
structure Record where
  progress : ℚ
  done : Bool
  text : String
deriving Repr, DecidableEq

/-- External collaborators of the video-assembly worker, abstracted over
an emulator state type `σ` and an image type `Img`: `init` is
`pyte.Screen(width, height)` (on the raw header values), `feed` is
`stream.feed(payload)`, `display` is `str(screen.display)` (the hashed
content signature), `rasterize` / `rasterizeFb` are the primary and the
white-on-black fallback `tty2img` calls, and `encode` is
`ImageSequenceClip(...).write_videofile(...)` at the given fps. -/
structure WorkerEnv (σ Img : Type) where
  init : Json → Json → σ
  feed : σ → String → σ
  display : σ → String
  rasterize : σ → Except String Img
  rasterizeFb : σ → Except String Img
  encode : List Img → ℚ → Except String Unit

/-- State of the frame-selection loop
(src/exegolsessionsviewer.py:1978-2023): the emulator screen, the hash of
the previously selected frame's display (`None` before the first frame),
the selected images and their raw `evt[0]` timestamps.  `selIdx` records
the positions (among the Output events) of the selected frames and
`innerErrors` the messages swallowed by the per-frame `except` handler;
both are observers added for specification only and influence nothing. -/
structure LoopSt (σ Img : Type) where
  screen : σ
  lastHash : Option String
  images : List Img
  timestamps : List Json
  selIdx : List Nat
  innerErrors : List String

/-- One iteration of the frame-selection loop
(src/exegolsessionsviewer.py:1979-2023) on the Output event `xs` at
position `i`.  Feeding a non-string payload or indexing a too-short
event raises into the per-frame handler (state unchanged); after a
successful feed, a frame is selected only when the display differs from
the previously selected frame's; if both rasterize calls fail the screen
mutation survives but no frame is recorded and the hash is not updated. -/
def loopStep (env : WorkerEnv σ Img) (st : LoopSt σ Img) (i : Nat)
    (xs : List Json) : LoopSt σ Img :=
  match xs.get? 2 with
  | some (.str p) =>
      let scr := env.feed st.screen p
      let sig := env.display scr
      if st.lastHash ≠ some sig then
        match env.rasterize scr with
        | .ok img =>
            { screen := scr, lastHash := some sig
              images := st.images ++ [img]
              timestamps := st.timestamps ++ [(xs.get? 0).getD .null]
              selIdx := st.selIdx ++ [i]
              innerErrors := st.innerErrors }
        | .error _ =>
            match env.rasterizeFb scr with
            | .ok img =>
                { screen := scr, lastHash := some sig
                  images := st.images ++ [img]
                  timestamps := st.timestamps ++ [(xs.get? 0).getD .null]
                  selIdx := st.selIdx ++ [i]
                  innerErrors := st.innerErrors }
            | .error m =>
                { st with screen := scr, innerErrors := st.innerErrors ++ [m] }
      else { st with screen := scr }
  | some _ => { st with innerErrors := st.innerErrors ++ ["feed TypeError"] }
  | none => { st with innerErrors := st.innerErrors ++ ["IndexError"] }

/-- The whole frame-selection loop over the Output events. -/
def loopRun (env : WorkerEnv σ Img) (st0 : LoopSt σ Img)
    (outs : List (List Json)) : LoopSt σ Img :=
  outs.enum.foldl (fun st p => loopStep env st p.1 p.2) st0

/-- Output-event filter of the worker
(src/exegolsessionsviewer.py:1975): `[evt for evt in events if evt[1] ==
"o"]`; indexing a non-list or too-short event raises out of the whole
worker body. -/
def filterOutputs : List Json → Except String (List (List Json))
  | [] => .ok []
  | j :: rest =>
      match j with
      | .arr xs =>
          match xs.get? 1 with
          | none => .error "IndexError"
          | some k =>
              match filterOutputs rest with
              | .error m => .error m
              | .ok tail =>
                  let isO : Bool := match k with | .str s => s = "o" | _ => false
                  .ok (if isO then xs :: tail else tail)
      | _ => .error "TypeError"

/-- `header.get(key, default)` (src/exegolsessionsviewer.py:1963-1964):
raises when the parsed header is not a dict. -/
def jsonGet (j : Json) (k : String) (d : Json) : Except String Json :=
  match j with
  | .obj fields => .ok ((lookupField fields k).getD d)
  | _ => .error "AttributeError"

/-- `duration = events[-1][0] if events else 0` followed by
`f"{duration:.2f}"` (src/exegolsessionsviewer.py:1965,1972): raises when
the last event is not an array, is empty, or has a non-numeric time. -/
def durationOf : List Json → Except String ℚ
  | [] => .ok 0
  | ev :: evs =>
      match (ev :: evs).getLast? with
      | some (.arr (x :: _)) =>
          match toNum? x with
          | some q => .ok q
          | none => .error "format TypeError"
      | some (.arr []) => .error "IndexError"
      | some _ => .error "TypeError"
      | none => .ok 0

/-- Numeric coercion of a whole timestamp list, as attempted by the
consecutive subtractions `s2 - s1` (src/exegolsessionsviewer.py:2028). -/
def numsOf : List Json → Except String (List ℚ)
  | [] => .ok []
  | j :: rest =>
      match toNum? j with
      | none => .error "TypeError"
      | some q =>
          match numsOf rest with
          | .error m => .error m
          | .ok tail => .ok (q :: tail)

/-- Mean of the consecutive timestamp deltas, 0.5 when fewer than two
timestamps exist (src/exegolsessionsviewer.py:2027-2031). -/
def meanDelta (ts : List ℚ) : ℚ :=
  if 1 < ts.length then
    ((ts.zip ts.tail).map (fun p => p.2 - p.1)).sum / ((ts.length - 1 : ℕ) : ℚ)
  else 1/2

/-- Encoder frame rate (src/exegolsessionsviewer.py:2037-2039):
`1 / mean` when the mean delta is positive, else the default 2, floored
at the minimum rate 5. -/
def fpsOf (ts : List ℚ) : ℚ :=
  max (if 0 < meanDelta ts then 1 / meanDelta ts else 2) 5

/-- Observable outcome of one worker run: the last progress record
written, the selected frames and timestamps (with their ghost indices),
the number of Output events, the fps handed to the encoder (`none` when
nothing was encoded), and the ghost log of exceptions swallowed by the
per-frame handler. -/
structure WorkerOut (Img : Type) where
  finalRecord : Record
  images : List Img
  timestamps : List Json
  selIdx : List Nat
  nOutputs : Nat
  fps : Option ℚ
  innerErrors : List String

/-- Body of `convert_cast_to_mp4_progress` inside the outer `try`
(src/exegolsessionsviewer.py:1957-2057): any `.error` here is what the
outer handler catches. -/
def workerBody (env : WorkerEnv σ Img) (lines : List Line) :
    Except String (WorkerOut Img) :=
  match lines with
  | [] => .error "IndexError"
  | l0 :: _ =>
      match l0.loads with
      | none => .error "json decode error"
      | some header =>
          match loadBody (lines.drop 1) with
          | .error m => .error m
          | .ok events =>
              match jsonGet header "width" (.num 100) with
              | .error m => .error m
              | .ok w =>
                  match jsonGet header "height" (.num 30) with
                  | .error m => .error m
                  | .ok h =>
                      match durationOf events with
                      | .error m => .error m
                      | .ok _ =>
                          match filterOutputs events with
                          | .error m => .error m
                          | .ok outs =>
                              let st := loopRun env
                                { screen := env.init w h, lastHash := none,
                                  images := [], timestamps := [], selIdx := [],
                                  innerErrors := [] } outs
                              match (if 1 < st.timestamps.length then
                                  numsOf st.timestamps else .ok []) with
                              | .error m => .error m
                              | .ok qs =>
                                  if st.images.isEmpty then
                                    .ok { finalRecord := ⟨1, true, "No frames generated!"⟩
                                          images := st.images
                                          timestamps := st.timestamps
                                          selIdx := st.selIdx
                                          nOutputs := outs.length
                                          fps := none
                                          innerErrors := st.innerErrors }
                                  else
                                    match env.encode st.images (fpsOf qs) with
                                    | .error m => .error m
                                    | .ok _ =>
                                        .ok { finalRecord := ⟨1, true, "Done"⟩
                                              images := st.images
                                              timestamps := st.timestamps
                                              selIdx := st.selIdx
                                              nOutputs := outs.length
                                              fps := some (fpsOf qs)
                                              innerErrors := st.innerErrors }

/-- The worker `convert_cast_to_mp4_progress`
(src/exegolsessionsviewer.py:1930-2061): early returns when the cast
file is missing or the MP4 already exists; otherwise the body runs and
any exception escaping it is caught by the outer handler, which writes
an `"Error: "` record (the real record text also carries the cast path,
elided here) and returns cleanly. -/
def convert_cast_to_mp4_progress (env : WorkerEnv σ Img)
    (castExists mp4Exists : Bool) (lines : List Line) : WorkerOut Img :=
  if !castExists then
    { finalRecord := ⟨0, false, "Error: Cast file not found"⟩
      images := [], timestamps := [], selIdx := [], nOutputs := 0
      fps := none, innerErrors := [] }
  else if mp4Exists then
    { finalRecord := ⟨1, true, "File already exists"⟩
      images := [], timestamps := [], selIdx := [], nOutputs := 0
      fps := none, innerErrors := [] }
  else
    match workerBody env lines with
    | .ok o => o
    | .error e =>
        { finalRecord := ⟨0, false, "Error: " ++ e⟩
          images := [], timestamps := [], selIdx := [], nOutputs := 0
          fps := none, innerErrors := [] }

/-- Durable per-key state observed by the job routes: whether the MP4
artifact exists, whether its progress side file exists, and the (ghost)
count of background workers spawned for the key. -/
structure JobState where
  mp4 : Bool
  progressFile : Bool
  workers : Nat
deriving Repr, DecidableEq

/-- The dispatch decision of the `/processing` route
(src/exegolsessionsviewer.py:1586-1598): spawn a worker thread exactly
when neither the MP4 nor the progress file exists.  The spawned thread
writes its progress file asynchronously, later. -/
def processing (s : JobState) : JobState :=
  if !(s.mp4 || s.progressFile) then { s with workers := s.workers + 1 } else s

/-- The `/progress` poller (src/exegolsessionsviewer.py:1643-1665):
`Done!` as soon as the MP4 exists, else the parsed progress record
(`Waiting...` when unreadable, modelled by `rec = none`), else
`Initializing...`. -/
def progressPoll (s : JobState) (rec : Option Record) : Record :=
  if s.mp4 then ⟨1, true, "Done!"⟩
  else if s.progressFile then rec.getD ⟨0, false, "Waiting..."⟩
  else ⟨0, false, "Initializing..."⟩

/-- A spawned worker's first write of its progress side file, an
asynchronous step that happens strictly after `processing` returns. -/
def workerRegister (s : JobState) : JobState :=
  if 0 < s.workers then { s with progressFile := true } else s

/-- Range-membership test `start <= e[0] <= end` as a total predicate on
events with a defined time. -/
def inRange (s e : ℚ) (j : Json) : Bool :=
  match evTime? j with
  | some t => decide (s ≤ t ∧ t ≤ e)
  | none => false

/-- Left-biased choice on optional JSON values (the value a merged dict
exposes: the override if present, else the base). -/
def optOr (a b : Option Json) : Option Json :=
  match a with
  | some v => some v
  | none => b

/-- Sample header line: a well-formed version-2 header with width 80. -/
def exHdr : Line :=
  ⟨false, false, false, some (.obj [("version", .num 2), ("width", .num 80)])⟩

/-- Sample event line `[t, kind, payload]`. -/
def evLine (t : ℚ) (k : String) (p : String) : Line :=
  lineOfJson (.arr [.num t, .str k, .str p])

/-- Sample corrupted line: non-blank text that is not valid JSON and does
not start with an array marker. -/
def junkLine : Line := ⟨false, false, false, none⟩

/-- Concrete emulator/rasterizer/encoder instantiation for tests: the
screen state is its own display string, feeding appends the payload, and
rasterizing and encoding always succeed. -/
def env0 : WorkerEnv String String :=
  { init := fun _ _ => ""
    feed := fun s p => s ++ p
    display := fun s => s
    rasterize := fun s => .ok s
    rasterizeFb := fun s => .ok s
    encode := fun _ _ => .ok () }

/-- Instantiation whose rasterizer (and its fallback) always fail. -/
def envFail : WorkerEnv String String :=
  { env0 with rasterize := fun _ => .error "boom", rasterizeFb := fun _ => .error "boom2" }

/-- Instantiation whose encoder fails. -/
def envEncFail : WorkerEnv String String :=
  { env0 with encode := fun _ _ => .error "encode boom" }

/-- Recording whose second Output event leaves the screen content
unchanged (empty payload). -/
def cexLines : List Line := [exHdr, evLine 0 "o" "a", evLine 1 "o" ""]

/-! Helper lemmas about field lookup and `dict.update`. -/

lemma lookupField_cons (p : String × Json) (ps : List (String × Json)) (k : String) :
    lookupField (p :: ps) k = if p.1 = k then some p.2 else lookupField ps k := by
  by_cases h : p.1 = k
  · simp [lookupField, List.find?, h]
  · simp [lookupField, List.find?, h]

lemma lookupField_append (l₁ l₂ : List (String × Json)) (k : String) :
    lookupField (l₁ ++ l₂) k = optOr (lookupField l₁ k) (lookupField l₂ k) := by
  induction l₁ with
  | nil => simp [lookupField, optOr]
  | cons p ps ih =>
      by_cases h : p.1 = k
      · simp [lookupField_cons, h, optOr]
      · simp only [List.cons_append, lookupField_cons, h, if_false, ih]

lemma lookupField_map_override (base upd : List (String × Json)) (k : String) :
    lookupField (base.map (fun p => (p.1, (lookupField upd p.1).getD p.2))) k =
      (lookupField base k).map (fun v => (lookupField upd k).getD v) := by
  induction base with
  | nil => simp [lookupField]
  | cons p ps ih =>
      by_cases h : p.1 = k
      · subst h
        simp [List.map_cons, lookupField_cons]
      · simp [List.map_cons, lookupField_cons, h, ih]

lemma lookupField_filter_new (base upd : List (String × Json)) (k : String) :
    lookupField (upd.filter (fun p => (lookupField base p.1).isNone)) k =
      if (lookupField base k).isNone then lookupField upd k else none := by
  induction upd with
  | nil => simp [lookupField]
  | cons p ps ih =>
      by_cases hk : p.1 = k
      · subst hk
        by_cases hb : (lookupField base p.1).isNone
        · simp [List.filter_cons, hb, lookupField_cons, ih]
        · simp [List.filter_cons, hb, lookupField_cons, ih]
      · by_cases hb : (lookupField base p.1).isNone
        · simp [List.filter_cons, hb, lookupField_cons, hk, ih]
        · simp [List.filter_cons, hb, lookupField_cons, hk, ih]

lemma lookupField_dictUpdate (base upd : List (String × Json)) (k : String) :
    lookupField (dictUpdate base upd) k =
      optOr (lookupField upd k) (lookupField base k) := by
  unfold dictUpdate
  rw [lookupField_append, lookupField_map_override, lookupField_filter_new]
  cases hb : lookupField base k with
  | none => cases hu : lookupField upd k <;> simp [optOr, hb, hu]
  | some v => cases hu : lookupField upd k <;> simp [optOr, hb, hu]

/-- C3 (amended): the parser reads the first line as a header; the
defaults `{version:2, width:100, height:30, timestamp:mtime,
env:{TERM:"xterm", SHELL:"/bin/bash"}}` are used whenever the first line
fails to parse, parses to a non-object, or parses to an object without a
`"version"` key; only an object containing `"version"` is merged, and
then each field present in it individually overrides its default while
absent fields keep their defaults. -/
theorem C3_header_defaults (mtime : ℚ) (l : Line) (rest : List Line) :
    (convert_to_cast mtime (l :: rest)).header = some (headerOfLine mtime l) ∧
    (∀ fields, l.loads = some (.obj fields) → (lookupField fields "version").isSome →
      headerOfLine mtime l = .obj (dictUpdate (defaultHeaderFields mtime) fields) ∧
      ∀ k, lookupField (dictUpdate (defaultHeaderFields mtime) fields) k =
        optOr (lookupField fields k) (lookupField (defaultHeaderFields mtime) k)) ∧
    (∀ fields, l.loads = some (.obj fields) → lookupField fields "version" = none →
      headerOfLine mtime l = .obj (defaultHeaderFields mtime)) ∧
    (l.loads = none → headerOfLine mtime l = .obj (defaultHeaderFields mtime)) ∧
    (∀ xs, l.loads = some (.arr xs) → headerOfLine mtime l = .obj (defaultHeaderFields mtime)) := by
  refine ⟨rfl, ?_, ?_, ?_, ?_⟩
  · intro fields hl hv
    refine ⟨?_, fun k => lookupField_dictUpdate _ _ k⟩
    simp [headerOfLine, hl, hv]
  · intro fields hl hv
    simp [headerOfLine, hl, hv]
  · intro hl
    simp [headerOfLine, hl]
  · intro xs hl
    simp [headerOfLine, hl]

/-- C3 witness: on the sample header `{"version": 2, "width": 80}` the
merge overrides `width` and keeps the default `height`. -/
theorem C3_header_defaults_witness :
    headerOfLine 7 exHdr =
      .obj (dictUpdate (defaultHeaderFields 7) [("version", .num 2), ("width", .num 80)]) ∧
    lookupField (dictUpdate (defaultHeaderFields 7) [("version", .num 2), ("width", .num 80)])
        "width" = some (.num 80) ∧
    lookupField (dictUpdate (defaultHeaderFields 7) [("version", .num 2), ("width", .num 80)])
        "height" = some (.num 30) := by
  have h := (C3_header_defaults 7 exHdr []).2.1 [("version", .num 2), ("width", .num 80)]
    rfl (by decide)
  exact ⟨h.1, (h.2 "width").trans rfl, (h.2 "height").trans rfl⟩

/-- C3 counterexample: a well-formed header object without a `"version"`
key does not override anything (`width` stays 100, not 80), and an empty
file gets no header line at all instead of the defaults. -/
theorem C3_cex :
    (convert_to_cast 0 [⟨false, false, false, some (.obj [("width", .num 80)])⟩]).header =
      some (.obj (defaultHeaderFields 0)) ∧
    lookupField (defaultHeaderFields 0) "width" = some (.num 100) ∧
    some (Json.num 100) ≠ some (Json.num 80) ∧
    convert_to_cast 0 [] = ⟨none, []⟩ := by
  refine ⟨rfl, rfl, ?_, rfl⟩
  intro h
  injection h with h'
  injection h' with h''
  exact absurd h'' (by norm_num)

/-- C6: a body line that is blank, fails to parse as JSON, or does not
start with an array marker is skipped and does not affect the parse of
the surrounding lines; the parser is total, so no malformed line raises
a fatal error. -/
theorem C6_malformed_skip (mtime : ℚ) (hd : Line) (pre post : List Line) (bad : Line)
    (hwf : bad.wf)
    (hbad : bad.blank = true ∨ bad.loads = none ∨ bad.bracketStripped = false) :
    convert_to_cast mtime (hd :: (pre ++ bad :: post)) =
      convert_to_cast mtime (hd :: (pre ++ post)) := by
  have h : eventOfLine? bad = none := by
    rcases hbad with hb | hl | hbr
    · obtain ⟨h1, _⟩ := hwf hb
      simp [eventOfLine?, h1]
    · by_cases hbr : bad.bracketStripped = true <;> simp [eventOfLine?, hbr, hl]
    · simp [eventOfLine?, hbr]
  simp [convert_to_cast, List.filterMap_append, List.filterMap_cons, h]

/-- C6 witness: a corrupted line between two valid event lines yields
exactly the two valid events. -/
theorem C6_malformed_skip_witness :
    convert_to_cast 0 [exHdr, evLine 0 "o" "hello", junkLine, evLine 1 "o" "world"] =
      convert_to_cast 0 [exHdr, evLine 0 "o" "hello", evLine 1 "o" "world"] ∧
    (convert_to_cast 0 [exHdr, evLine 0 "o" "hello", junkLine, evLine 1 "o" "world"]).events =
      [.arr [.num 0, .str "o", .str "hello"], .arr [.num 1, .str "o", .str "world"]] :=
  ⟨C6_malformed_skip 0 exHdr [evLine 0 "o" "hello"] [evLine 1 "o" "world"] junkLine
      (fun hb => nomatch hb) (Or.inr (Or.inl rfl)),
    rfl⟩

/-- C7 (amended): per request, an existing MP4 short-circuits (no spawn,
poller sees Done), an existing progress record prevents a spawn, a
worker is spawned exactly when neither exists, each request spawns at
most one worker, and once a spawned worker has registered its progress
record a further request spawns nothing.  (The global "never more than
one worker per key" fails: the record is written asynchronously, see the
counterexample.) -/
theorem C7_job_dispatch (s : JobState) (rec : Option Record) :
    (s.mp4 = true → processing s = s ∧ progressPoll s rec = ⟨1, true, "Done!"⟩) ∧
    (s.progressFile = true → processing s = s) ∧
    (s.mp4 = false → s.progressFile = false →
      processing s = { s with workers := s.workers + 1 }) ∧
    (processing s).workers ≤ s.workers + 1 ∧
    (0 < s.workers → processing (workerRegister s) = workerRegister s) := by
  refine ⟨?_, ?_, ?_, ?_, ?_⟩
  · intro h
    exact ⟨by simp [processing, h], by simp [progressPoll, h]⟩
  · intro h
    simp [processing, h]
  · intro h1 h2
    simp [processing, h1, h2]
  · unfold processing
    split
    · exact Nat.le_refl _
    · exact Nat.le_succ _
  · intro h
    simp [workerRegister, h, processing]

/-- C7 witness: an existing MP4 artifact short-circuits the request and
the poller observes Done. -/
theorem C7_job_dispatch_witness :
    processing ⟨true, false, 0⟩ = ⟨true, false, 0⟩ ∧
    progressPoll ⟨true, false, 0⟩ none = ⟨1, true, "Done!"⟩ :=
  (C7_job_dispatch ⟨true, false, 0⟩ none).1 rfl

/-- C7 counterexample: the spawned worker writes its progress record
asynchronously, so a second request arriving before that write also sees
neither artifact nor record and spawns a second worker — two workers for
one key. -/
theorem C7_cex :
    (processing (processing ⟨false, false, 0⟩)).workers = 2 ∧
    ¬(processing (processing ⟨false, false, 0⟩)).workers ≤ 1 := by
  decide

/-- C9: with at least two selected frames and a positive mean
inter-frame delta the encoder rate is `1 / mean` floored at the minimum
rate 5; with fewer than two frames the default mean 0.5 gives the
default rate 2, also floored to 5; the floor always holds. -/
theorem C9_fps_rule (ts : List ℚ) :
    (0 < meanDelta ts → fpsOf ts = max (1 / meanDelta ts) 5) ∧
    (ts.length < 2 → meanDelta ts = 1/2 ∧ fpsOf ts = 5) ∧
    (0 < meanDelta ts → 1 / meanDelta ts ≤ 5 → fpsOf ts = 5) ∧
    5 ≤ fpsOf ts := by
  have hfloor : 5 ≤ fpsOf ts := le_max_right _ _
  refine ⟨?_, ?_, ?_, hfloor⟩
  · intro h
    simp [fpsOf, h]
  · intro h
    have h' : ¬ 1 < ts.length := by omega
    constructor
    · simp [meanDelta, h']
    · norm_num [fpsOf, meanDelta, h']
  · intro h hle
    unfold fpsOf
    rw [if_pos h, max_eq_right hle]

/-- C9 witness: timestamps `[0, 1/10]` give rate 10 = 1/mean; a single
timestamp gives the floored default rate 5. -/
theorem C9_fps_rule_witness :
    fpsOf [0, 1/10] = 10 ∧ fpsOf [(3 : ℚ)] = 5 := by
  have hm : meanDelta [0, 1/10] = 1/10 := by
    norm_num [meanDelta, List.zip_cons_cons, List.zip_nil_right]
  constructor
  · rw [(C9_fps_rule [0, 1/10]).1 (by rw [hm]; norm_num), hm,
      max_eq_left (by norm_num)]
    norm_num
  · exact ((C9_fps_rule [(3 : ℚ)]).2.1 (by norm_num)).2

/-- C10: the session-duration computation is a total function; it
returns 0 on a read failure or when fewer than two parseable event lines
exist, and the difference between the last and first timestamps when at
least two parseable events with numeric first/last timestamps exist. -/
theorem C10_session_duration (fileOk : Bool) (lines : List Line) :
    (fileOk = false → get_session_duration fileOk lines = 0) ∧
    (((lines.drop 1).filterMap durTimeOf?).length < 2 →
      get_session_duration fileOk lines = 0) ∧
    (∀ a b, 2 ≤ ((lines.drop 1).filterMap durTimeOf?).length →
      toNum? ((((lines.drop 1).filterMap durTimeOf?).head?).getD .null) = some a →
      toNum? ((((lines.drop 1).filterMap durTimeOf?).getLast?).getD .null) = some b →
      get_session_duration true lines = b - a) := by
  refine ⟨?_, ?_, ?_⟩
  · intro h
    simp [get_session_duration, h]
  · intro h
    have h' : ¬ 2 ≤ ((lines.drop 1).filterMap durTimeOf?).length := by omega
    cases fileOk
    · rfl
    · exact if_neg h'
  · intro a b hlen ha hb
    have hdef : get_session_duration true lines =
        if 2 ≤ ((lines.drop 1).filterMap durTimeOf?).length then
          (match toNum? ((((lines.drop 1).filterMap durTimeOf?).getLast?).getD .null),
              toNum? ((((lines.drop 1).filterMap durTimeOf?).head?).getD .null) with
            | some b, some a => b - a
            | _, _ => 0)
        else 0 := rfl
    rw [hdef, if_pos hlen, hb, ha]

/-- C10 witness: two events at times 1 and 5 give duration 4. -/
theorem C10_session_duration_witness :
    get_session_duration true [exHdr, evLine 1 "o" "a", evLine 5 "o" "b"] = 4 := by
  have h := (C10_session_duration true [exHdr, evLine 1 "o" "a", evLine 5 "o" "b"]).2.2
    1 5 (by decide) rfl rfl
  rw [h]
  norm_num

/-! Helper lemmas for range extraction. -/

lemma filterRangeE_ok (s e : ℚ) (evs : List Json)
    (h : ∀ j ∈ evs, (evTime? j).isSome) :
    filterRangeE s e evs = .ok (evs.filter (inRange s e)) := by
  induction evs with
  | nil => rfl
  | cons j rest ih =>
      obtain ⟨t, ht⟩ := Option.isSome_iff_exists.mp (h j (List.mem_cons_self _ _))
      have hrest := ih (fun x hx => h x (List.mem_cons_of_mem _ hx))
      by_cases hc : s ≤ t ∧ t ≤ e
      · simp [filterRangeE, ht, hrest, List.filter_cons, inRange, hc]
      · simp [filterRangeE, ht, hrest, List.filter_cons, inRange, hc]

lemma evTime?_setTime (j : Json) (t u : ℚ) (h : evTime? j = some t) :
    evTime? (setTime u j) = some u := by
  cases j with
  | arr xs =>
      cases xs with
      | nil => simp [evTime?] at h
      | cons x rest => simp [setTime, evTime?, toNum?]
  | null => simp [evTime?] at h
  | bool b => simp [evTime?] at h
  | num q => simp [evTime?] at h
  | str s => simp [evTime?] at h
  | obj fields => simp [evTime?] at h

lemma shiftExtract_eq_map (l : List Json) (j0 : Json) (rest : List Json) (t0 : ℚ)
    (hl : l = j0 :: rest) (h0 : evTime? j0 = some t0) :
    shiftExtract l = l.map (fun j =>
      match evTime? j with
      | some t => setTime (t - t0) j
      | none => j) := by
  subst hl
  simp [shiftExtract, h0]

lemma filterMap_shift_fn (t0 : ℚ) (l : List Json)
    (h : ∀ j ∈ l, (evTime? j).isSome) :
    (l.map (fun j => match evTime? j with
      | some t => setTime (t - t0) j
      | none => j)).filterMap evTime? =
      (l.filterMap evTime?).map (fun t => t - t0) := by
  induction l with
  | nil => rfl
  | cons j rest ih =>
      obtain ⟨t, ht⟩ := Option.isSome_iff_exists.mp (h j (List.mem_cons_self _ _))
      have hrest := ih (fun x hx => h x (List.mem_cons_of_mem _ hx))
      simp [List.filterMap_cons, ht, evTime?_setTime j t (t - t0) ht, hrest]

lemma shiftExtract_times (l : List Json) (t0 : ℚ)
    (h : ∀ j ∈ l, (evTime? j).isSome)
    (h0 : l.head?.bind evTime? = some t0) :
    (shiftExtract l).filterMap evTime? =
      (l.filterMap evTime?).map (fun t => t - t0) := by
  cases l with
  | nil => simp at h0
  | cons j0 rest =>
      have hj0 : evTime? j0 = some t0 := by simpa using h0
      rw [shiftExtract_eq_map _ j0 rest t0 rfl hj0]
      exact filterMap_shift_fn t0 (j0 :: rest) h

lemma shiftExtract_head (l : List Json) (t0 : ℚ)
    (h0 : l.head?.bind evTime? = some t0) :
    (shiftExtract l).head?.bind evTime? = some 0 := by
  cases l with
  | nil => simp at h0
  | cons j0 rest =>
      have hj0 : evTime? j0 = some t0 := by simpa using h0
      rw [shiftExtract_eq_map _ j0 rest t0 rfl hj0]
      simp [hj0, evTime?_setTime j0 t0 0 hj0, sub_self]

lemma diffs_map_sub (xs : List ℚ) (c : ℚ) :
    ((xs.map (fun t => t - c)).zip (xs.map (fun t => t - c)).tail).map
        (fun p => p.2 - p.1) =
      (xs.zip xs.tail).map (fun p => p.2 - p.1) := by
  induction xs with
  | nil => rfl
  | cons x rest ih =>
      cases rest with
      | nil => rfl
      | cons y rest' =>
          simp only [List.map_cons, List.tail_cons, List.zip_cons_cons,
            List.cons.injEq] at ih ⊢
          exact ⟨by ring, ih⟩

/-- C1 (amended): both range-extraction paths retain exactly the events
with `start ≤ time ≤ end`, in source order; the MP4-extract pipeline
additionally shifts every retained time down by the first retained
event's time, so its first retained event is at time 0, relative spacing
is preserved, and for a time-sorted recording all shifted times are
nonnegative; the `/extract` download route writes the retained events
back with their original, unshifted times. -/
theorem C1_range_extraction (s e t0 : ℚ) (l0 : Line) (rest : List Line)
    (evs kept : List Json)
    (hse : s ≤ e)
    (hload : loadBody rest = .ok evs)
    (htimes : ∀ j ∈ evs, (evTime? j).isSome)
    (hkept : kept = evs.filter (inRange s e)) :
    extract s e (l0 :: rest) = .ok { headerLine := l0, events := kept } ∧
    mp4ExtractEvents s e (l0 :: rest) = .ok (shiftExtract kept) ∧
    (kept.head?.bind evTime? = some t0 →
      (shiftExtract kept).filterMap evTime? =
        (kept.filterMap evTime?).map (fun t => t - t0) ∧
      (shiftExtract kept).head?.bind evTime? = some 0 ∧
      (((shiftExtract kept).filterMap evTime?).zip
          ((shiftExtract kept).filterMap evTime?).tail).map (fun p => p.2 - p.1) =
        ((kept.filterMap evTime?).zip (kept.filterMap evTime?).tail).map
          (fun p => p.2 - p.1) ∧
      (List.Sorted (· ≤ ·) (kept.filterMap evTime?) →
        ∀ u ∈ (shiftExtract kept).filterMap evTime?, 0 ≤ u)) := by
  subst hkept
  have hfilter := filterRangeE_ok s e evs htimes
  have hkt : ∀ j ∈ evs.filter (inRange s e), (evTime? j).isSome :=
    fun j hj => htimes j (List.mem_filter.mp hj).1
  refine ⟨?_, ?_, ?_⟩
  · simp [extract, hload, hfilter]
  · simp [mp4ExtractEvents, hload, hfilter]
  · intro h0
    refine ⟨shiftExtract_times _ t0 hkt h0, shiftExtract_head _ t0 h0, ?_, ?_⟩
    · rw [shiftExtract_times _ t0 hkt h0]
      exact diffs_map_sub _ t0
    · intro hs u hu
      rw [shiftExtract_times _ t0 hkt h0] at hu
      obtain ⟨t, htmem, rfl⟩ := List.mem_map.mp hu
      have ht0 : t0 ≤ t := by
        cases hk : evs.filter (inRange s e) with
        | nil => rw [hk] at h0; simp at h0
        | cons j0 k' =>
            have hj0 : evTime? j0 = some t0 := by
              rw [hk] at h0; simpa using h0
            rw [hk] at htmem hs
            simp only [List.filterMap_cons, hj0] at htmem hs
            rcases List.mem_cons.mp htmem with h | h
            · exact le_of_eq h.symm
            · exact List.rel_of_sorted_cons hs t h
      exact sub_nonneg.mpr ht0

/-- C1 witness: range [0, 10] over events at times 5, 7, 20 keeps the
first two; the MP4 pipeline shifts them to times 0 and 2 while the
`/extract` route keeps times 5 and 7. -/
theorem C1_range_extraction_witness :
    mp4ExtractEvents 0 10 [exHdr, evLine 5 "o" "a", evLine 7 "o" "b", evLine 20 "o" "c"] =
      .ok [.arr [.num 0, .str "o", .str "a"], .arr [.num 2, .str "o", .str "b"]] ∧
    extract 0 10 [exHdr, evLine 5 "o" "a", evLine 7 "o" "b", evLine 20 "o" "c"] =
      .ok { headerLine := exHdr,
            events := [.arr [.num 5, .str "o", .str "a"],
                       .arr [.num 7, .str "o", .str "b"]] } := by
  have h := C1_range_extraction 0 10 5 exHdr
    [evLine 5 "o" "a", evLine 7 "o" "b", evLine 20 "o" "c"]
    [.arr [.num 5, .str "o", .str "a"], .arr [.num 7, .str "o", .str "b"],
     .arr [.num 20, .str "o", .str "c"]]
    [.arr [.num 5, .str "o", .str "a"], .arr [.num 7, .str "o", .str "b"]]
    (by norm_num) rfl (by decide)
    (by norm_num [inRange, evTime?, toNum?, List.filter_cons])
  refine ⟨h.2.1.trans ?_, h.1⟩
  norm_num [shiftExtract, evTime?, toNum?, setTime]

/-- C1 counterexample: the `/extract` route applies no time shift — with
one event at time 5 and range [0, 10], the first (and only) retained
event of the output keeps time 5, not 0 as the claim requires. -/
theorem C1_cex :
    extract 0 10 [exHdr, evLine 5 "o" "a"] =
      .ok { headerLine := exHdr, events := [.arr [.num 5, .str "o", .str "a"]] } ∧
    evTime? (.arr [.num 5, .str "o", .str "a"]) = some 5 ∧ (5 : ℚ) ≠ 0 := by
  refine ⟨?_, rfl, by norm_num⟩
  norm_num [extract, loadBody, filterRangeE, evLine, lineOfJson, Json.isArr,
    evTime?, toNum?]

/-! Helper lemmas for the parse→serialize round trip. -/

lemma eventOfLine?_shape (l : Line) (j : Json) (h : eventOfLine? l = some j) :
    ∃ xs, j = .arr xs ∧ 3 ≤ xs.length := by
  by_cases hb : l.bracketStripped = true
  · cases hl : l.loads with
    | none => simp [eventOfLine?, hb, hl] at h
    | some j' =>
        cases j' with
        | arr xs =>
            by_cases hlen : 3 ≤ xs.length
            · simp [eventOfLine?, hb, hl, hlen] at h
              exact ⟨xs, h.symm, hlen⟩
            · simp [eventOfLine?, hb, hl, hlen] at h
        | null => simp [eventOfLine?, hb, hl] at h
        | bool b => simp [eventOfLine?, hb, hl] at h
        | num q => simp [eventOfLine?, hb, hl] at h
        | str s => simp [eventOfLine?, hb, hl] at h
        | obj fields => simp [eventOfLine?, hb, hl] at h
  · simp [eventOfLine?, hb] at h

lemma events_roundtrip (evs : List Json)
    (h : ∀ j ∈ evs, ∃ xs, j = .arr xs ∧ 3 ≤ xs.length) :
    (evs.map lineOfJson).filterMap eventOfLine? = evs := by
  induction evs with
  | nil => rfl
  | cons j rest ih =>
      obtain ⟨xs, rfl, hlen⟩ := h j (List.mem_cons_self _ _)
      have hrest := ih (fun x hx => h x (List.mem_cons_of_mem _ hx))
      simp [List.filterMap_cons, eventOfLine?, lineOfJson, Json.isArr, hlen, hrest]

lemma lookupField_default_none (a b : ℚ) (k : String)
    (h : lookupField (defaultHeaderFields a) k = none) :
    lookupField (defaultHeaderFields b) k = none := by
  by_cases h1 : "version" = k
  · simp [defaultHeaderFields, lookupField_cons, h1] at h
  · by_cases h2 : "width" = k
    · simp [defaultHeaderFields, lookupField_cons, h1, h2] at h
    · by_cases h3 : "height" = k
      · simp [defaultHeaderFields, lookupField_cons, h1, h2, h3] at h
      · by_cases h4 : "timestamp" = k
        · simp [defaultHeaderFields, lookupField_cons, h1, h2, h3, h4] at h
        · by_cases h5 : "env" = k
          · simp [defaultHeaderFields, lookupField_cons, h1, h2, h3, h4, h5] at h
          · simp [defaultHeaderFields, lookupField_cons, h1, h2, h3, h4, h5, lookupField]

lemma dictUpdate_default_absorb (a b : ℚ) (fields : List (String × Json)) :
    dictUpdate (defaultHeaderFields b) (dictUpdate (defaultHeaderFields a) fields) =
      dictUpdate (defaultHeaderFields a) fields := by
  have key : ∀ p ∈ fields.filter
        (fun q => (lookupField (defaultHeaderFields a) q.1).isNone),
      (fun q => (lookupField (defaultHeaderFields b) q.1).isNone) p = true := by
    intro p hp
    have hmem := List.of_mem_filter hp
    simp only [Option.isNone_iff_eq_none] at hmem ⊢
    exact lookupField_default_none a b p.1 hmem
  have h2 : (dictUpdate (defaultHeaderFields a) fields).filter
      (fun p => (lookupField (defaultHeaderFields b) p.1).isNone) =
      fields.filter (fun p => (lookupField (defaultHeaderFields a) p.1).isNone) := by
    show (((defaultHeaderFields a).map
        (fun p => (p.1, (lookupField fields p.1).getD p.2))) ++
        fields.filter (fun p => (lookupField (defaultHeaderFields a) p.1).isNone)).filter
        (fun p => (lookupField (defaultHeaderFields b) p.1).isNone) = _
    rw [List.filter_append]
    rw [show ((defaultHeaderFields a).map
        (fun p => (p.1, (lookupField fields p.1).getD p.2))).filter
        (fun p => (lookupField (defaultHeaderFields b) p.1).isNone) = ([] : List (String × Json))
      from rfl]
    rw [List.nil_append]
    exact List.filter_eq_self.mpr key
  calc dictUpdate (defaultHeaderFields b) (dictUpdate (defaultHeaderFields a) fields)
      = (defaultHeaderFields b).map
          (fun p => (p.1,
            (lookupField (dictUpdate (defaultHeaderFields a) fields) p.1).getD p.2)) ++
        (dictUpdate (defaultHeaderFields a) fields).filter
          (fun p => (lookupField (defaultHeaderFields b) p.1).isNone) := rfl
    _ = (defaultHeaderFields a).map
          (fun p => (p.1, (lookupField fields p.1).getD p.2)) ++
        fields.filter (fun p => (lookupField (defaultHeaderFields a) p.1).isNone) := by
          rw [h2]
          congr 1
    _ = dictUpdate (defaultHeaderFields a) fields := rfl

lemma headerOfLine_default_roundtrip (a b : ℚ) :
    headerOfLine b (lineOfJson (.obj (defaultHeaderFields a))) =
      .obj (defaultHeaderFields a) := rfl

lemma headerOfLine_roundtrip (a b : ℚ) (l : Line) :
    headerOfLine b (lineOfJson (headerOfLine a l)) = headerOfLine a l := by
  cases hl : l.loads with
  | none =>
      rw [show headerOfLine a l = .obj (defaultHeaderFields a) from by
        simp [headerOfLine, hl]]
      exact headerOfLine_default_roundtrip a b
  | some j =>
      cases j with
      | obj fields =>
          by_cases hv : (lookupField fields "version").isSome
          · have h1 : headerOfLine a l =
                .obj (dictUpdate (defaultHeaderFields a) fields) := by
              simp [headerOfLine, hl, hv]
            rw [h1]
            have hv' : (lookupField (dictUpdate (defaultHeaderFields a) fields)
                "version").isSome := by
              rw [lookupField_dictUpdate]
              rcases Option.isSome_iff_exists.mp hv with ⟨v, hv2⟩
              simp [optOr, hv2]
            simp [headerOfLine, lineOfJson, hv', dictUpdate_default_absorb]
          · rw [show headerOfLine a l = .obj (defaultHeaderFields a) from by
              simp [headerOfLine, hl, hv]]
            exact headerOfLine_default_roundtrip a b
      | null =>
          rw [show headerOfLine a l = .obj (defaultHeaderFields a) from by
            simp [headerOfLine, hl]]
          exact headerOfLine_default_roundtrip a b
      | bool bb =>
          rw [show headerOfLine a l = .obj (defaultHeaderFields a) from by
            simp [headerOfLine, hl]]
          exact headerOfLine_default_roundtrip a b
      | num q =>
          rw [show headerOfLine a l = .obj (defaultHeaderFields a) from by
            simp [headerOfLine, hl]]
          exact headerOfLine_default_roundtrip a b
      | str s =>
          rw [show headerOfLine a l = .obj (defaultHeaderFields a) from by
            simp [headerOfLine, hl]]
          exact headerOfLine_default_roundtrip a b
      | arr xs =>
          rw [show headerOfLine a l = .obj (defaultHeaderFields a) from by
            simp [headerOfLine, hl]]
          exact headerOfLine_default_roundtrip a b

/-- C5: re-serializing a parsed recording and parsing it again (with any
new file-modification time) reproduces the identical normalized file —
the same header value and the same event sequence with identical order,
times, kinds and payloads; parse→serialize is idempotent. -/
theorem C5_roundtrip (mtime mtime' : ℚ) (lines : List Line) :
    convert_to_cast mtime' (castLines (convert_to_cast mtime lines)) =
      convert_to_cast mtime lines := by
  cases lines with
  | nil => rfl
  | cons l rest =>
      have hshape : ∀ j ∈ rest.filterMap eventOfLine?,
          ∃ xs, j = .arr xs ∧ 3 ≤ xs.length := by
        intro j hj
        obtain ⟨l', _, hl'⟩ := List.mem_filterMap.mp hj
        exact eventOfLine?_shape l' j hl'
      have hh := headerOfLine_roundtrip mtime mtime' l
      have he := events_roundtrip (rest.filterMap eventOfLine?) hshape
      show CastFile.mk
          (some (headerOfLine mtime' (lineOfJson (headerOfLine mtime l))))
          (((rest.filterMap eventOfLine?).map lineOfJson).filterMap eventOfLine?) =
        CastFile.mk (some (headerOfLine mtime l)) (rest.filterMap eventOfLine?)
      rw [hh, he]

/-! Helper lemmas for search. -/

lemma hitOf?_some (query : String) (xs : List Json) (r : SearchHit)
    (h : hitOf? query xs = some r) :
    ∃ payload, xs.get? 2 = some (.str payload) ∧ matchCI query payload = true ∧
      r = ⟨(xs.get? 0).getD .null, excerptOf payload⟩ := by
  unfold hitOf? at h
  cases h2 : xs.get? 2 with
  | none => rw [h2] at h; cases h
  | some j =>
      rw [h2] at h
      cases j with
      | str payload =>
          have h' : (if matchCI query payload = true then
              some (⟨(xs.get? 0).getD .null, excerptOf payload⟩ : SearchHit)
              else none) = some r := h
          by_cases hm : matchCI query payload = true
          · rw [if_pos hm] at h'
            exact ⟨payload, rfl, hm, (Option.some.inj h').symm⟩
          · rw [if_neg hm] at h'; cases h'
      | null => cases h
      | bool b => cases h
      | num q => cases h
      | arr ys => cases h
      | obj fs => cases h

lemma hit_times_sublist (query : String) (evs : List (List Json)) :
    List.Sublist ((evs.filterMap (hitOf? query)).filterMap (fun r => toNum? r.timestamp))
      (evs.filterMap (fun xs => toNum? ((xs.get? 0).getD .null))) := by
  induction evs with
  | nil => exact List.Sublist.refl _
  | cons xs rest ih =>
      cases hh : hitOf? query xs with
      | none =>
          rw [List.filterMap_cons, List.filterMap_cons, hh]
          cases ht : toNum? ((xs.get? 0).getD .null) with
          | none => exact ih
          | some t => exact ih.cons t
      | some r =>
          obtain ⟨payload, hp, hm, hr⟩ := hitOf?_some query xs r hh
          rw [List.filterMap_cons, List.filterMap_cons, hh, List.filterMap_cons]
          subst hr
          cases ht : toNum? (((xs.get? 0).getD .null : Json)) with
          | none => simpa [ht] using ih
          | some t => simpa [ht] using ih.cons₂ t

lemma excerptOf_length (s : String) : (excerptOf s).length ≤ 103 := by
  unfold excerptOf
  by_cases h : 100 < s.length
  · rw [if_pos h, String.length_append]
    have h1 : (String.mk (s.toList.take 100)).length ≤ 100 := by
      show (s.toList.take 100).length ≤ 100
      rw [List.length_take]
      omega
    have h2 : ("..." : String).length = 3 := rfl
    omega
  · rw [if_neg h]
    omega

/-- C4: search over a converted recording returns, in source order,
exactly the Output events whose payload contains the query
case-insensitively — every hit's source payload matches, no matching
Output event is omitted — with timestamps ascending whenever the
recording's Output-event times are ascending; the empty query yields an
empty, non-error result; every excerpt is bounded by 103 characters (100
plus the ellipsis marker). -/
theorem C4_search_correct (query : String) (l0 : Line) (rest : List Line) (j0 : Json)
    (hq : query ≠ "") (hl0 : l0.loads = some j0) :
    (∀ lines, search "" lines = { results := [], isError := false }) ∧
    (search query (l0 :: rest)).isError = false ∧
    (∀ r ∈ (search query (l0 :: rest)).results,
      ∃ xs ∈ rest.filterMap searchEventOf?, ∃ payload,
        xs.get? 2 = some (.str payload) ∧ matchCI query payload = true ∧
        r = ⟨(xs.get? 0).getD .null, excerptOf payload⟩) ∧
    (∀ xs ∈ rest.filterMap searchEventOf?, ∀ payload,
      xs.get? 2 = some (.str payload) → matchCI query payload = true →
      (⟨(xs.get? 0).getD .null, excerptOf payload⟩ : SearchHit) ∈
        (search query (l0 :: rest)).results) ∧
    (List.Sorted (· ≤ ·)
        ((rest.filterMap searchEventOf?).filterMap
          (fun xs => toNum? ((xs.get? 0).getD .null))) →
      List.Sorted (· ≤ ·)
        ((search query (l0 :: rest)).results.filterMap
          (fun r => toNum? r.timestamp))) ∧
    (∀ r ∈ (search query (l0 :: rest)).results, r.content.length ≤ 103) := by
  have hdef : search query (l0 :: rest) =
      { results := (rest.filterMap searchEventOf?).filterMap (hitOf? query)
        isError := false } := by
    simp [search, hq, hl0]
  refine ⟨fun lines => by simp [search], by rw [hdef], ?_, ?_, ?_, ?_⟩
  · intro r hr
    rw [hdef] at hr
    obtain ⟨xs, hxs, hhit⟩ := List.mem_filterMap.mp hr
    obtain ⟨payload, hp, hm, hr'⟩ := hitOf?_some query xs r hhit
    exact ⟨xs, hxs, payload, hp, hm, hr'⟩
  · intro xs hxs payload hp hm
    rw [hdef]
    refine List.mem_filterMap.mpr ⟨xs, hxs, ?_⟩
    unfold hitOf?
    simp only [hp]
    rw [if_pos hm]
  · intro hsort
    rw [hdef]
    exact List.Pairwise.sublist (hit_times_sublist query _) hsort
  · intro r hr
    rw [hdef] at hr
    obtain ⟨xs, _, hhit⟩ := List.mem_filterMap.mp hr
    obtain ⟨payload, _, _, hr'⟩ := hitOf?_some query xs r hhit
    rw [hr']
    exact excerptOf_length payload

/-- C4 witness: query "LO" over Output events "hello" and "zzz" (plus an
Input event "xlox") returns exactly the "hello" hit. -/
theorem C4_search_correct_witness :
    (⟨.num 0, excerptOf "hello"⟩ : SearchHit) ∈
      (search "LO" [exHdr, evLine 0 "o" "hello", evLine 1 "i" "xlox",
        evLine 2 "o" "zzz"]).results ∧
    search "" [exHdr, evLine 0 "o" "hello"] = { results := [], isError := false } := by
  have h := C4_search_correct "LO" exHdr
    [evLine 0 "o" "hello", evLine 1 "i" "xlox", evLine 2 "o" "zzz"]
    (.obj [("version", .num 2), ("width", .num 80)])
    (by decide) rfl
  refine ⟨?_, h.1 _⟩
  have hmem : ([.num 0, .str "o", .str "hello"] : List Json) ∈
      ([evLine 0 "o" "hello", evLine 1 "i" "xlox",
        evLine 2 "o" "zzz"].filterMap searchEventOf?) :=
    List.mem_cons_self _ _
  have hb := h.2.2.2.1 [.num 0, .str "o", .str "hello"] hmem "hello" rfl (by decide)
  exact hb

/-! Helper lemmas for the frame-selection loop and the worker. -/

lemma loopStep_lengths (env : WorkerEnv σ Img) (st : LoopSt σ Img) (i : Nat)
    (xs : List Json)
    (h1 : st.images.length = st.timestamps.length)
    (h2 : st.selIdx.length = st.timestamps.length) :
    (loopStep env st i xs).images.length = (loopStep env st i xs).timestamps.length ∧
    (loopStep env st i xs).selIdx.length = (loopStep env st i xs).timestamps.length ∧
    (loopStep env st i xs).timestamps.length ≤ st.timestamps.length + 1 := by
  unfold loopStep
  split
  · dsimp only
    split
    · split
      · refine ⟨?_, ?_, ?_⟩ <;> simp [h1, h2]
      · split
        · refine ⟨?_, ?_, ?_⟩ <;> simp [h1, h2]
        · exact ⟨h1, h2, Nat.le_succ _⟩
    · exact ⟨h1, h2, Nat.le_succ _⟩
  · exact ⟨h1, h2, Nat.le_succ _⟩
  · exact ⟨h1, h2, Nat.le_succ _⟩

lemma loopFold_lengths (env : WorkerEnv σ Img) (l : List (Nat × List Json))
    (st : LoopSt σ Img)
    (h1 : st.images.length = st.timestamps.length)
    (h2 : st.selIdx.length = st.timestamps.length) :
    (l.foldl (fun st p => loopStep env st p.1 p.2) st).images.length =
      (l.foldl (fun st p => loopStep env st p.1 p.2) st).timestamps.length ∧
    (l.foldl (fun st p => loopStep env st p.1 p.2) st).selIdx.length =
      (l.foldl (fun st p => loopStep env st p.1 p.2) st).timestamps.length ∧
    (l.foldl (fun st p => loopStep env st p.1 p.2) st).timestamps.length ≤
      st.timestamps.length + l.length := by
  induction l generalizing st with
  | nil =>
      simp only [List.foldl_nil, List.length_nil]
      exact ⟨h1, h2, by omega⟩
  | cons p rest ih =>
      obtain ⟨g1, g2, g3⟩ := loopStep_lengths env st p.1 p.2 h1 h2
      obtain ⟨r1, r2, r3⟩ := ih (loopStep env st p.1 p.2) g1 g2
      refine ⟨r1, r2, ?_⟩
      simp only [List.foldl_cons] at r3 ⊢
      simp only [List.length_cons]
      omega

/-- C2 (amended): the frame-selection loop, started from the worker's
empty initial state, selects at most one frame per Output event — the
number of selected frames (= images = timestamps) never exceeds the
number of Output events.  The snapshot after the last Output event is
selected only when its content signature differs from the previously
selected frame's, so it is not always included (see the counterexample). -/
theorem C2_frame_bound (σ Img : Type) (env : WorkerEnv σ Img) (init : σ)
    (outs : List (List Json)) :
    (loopRun env ⟨init, none, [], [], [], []⟩ outs).timestamps.length ≤ outs.length ∧
    (loopRun env ⟨init, none, [], [], [], []⟩ outs).images.length =
      (loopRun env ⟨init, none, [], [], [], []⟩ outs).timestamps.length ∧
    (loopRun env ⟨init, none, [], [], [], []⟩ outs).selIdx.length =
      (loopRun env ⟨init, none, [], [], [], []⟩ outs).timestamps.length := by
  obtain ⟨h1, h2, h3⟩ := loopFold_lengths env outs.enum ⟨init, none, [], [], [], []⟩ rfl rfl
  refine ⟨?_, h1, h2⟩
  simpa [List.enum_length] using h3

/-- C2 counterexample: Output events "a" then "" — the second feed
leaves the display unchanged, so only the first event's snapshot (ghost
index 0) is selected out of 2 Output events; the snapshot after the last
Output event (index 1) is not included, and the job still completes
normally. -/
theorem C2_cex :
    (convert_cast_to_mp4_progress env0 true false cexLines).nOutputs = 2 ∧
    (convert_cast_to_mp4_progress env0 true false cexLines).selIdx = [0] ∧
    ¬((convert_cast_to_mp4_progress env0 true false cexLines).nOutputs - 1 ∈
      (convert_cast_to_mp4_progress env0 true false cexLines).selIdx) ∧
    (convert_cast_to_mp4_progress env0 true false cexLines).finalRecord =
      ⟨1, true, "Done"⟩ := by
  refine ⟨rfl, rfl, ?_, rfl⟩
  rw [show (convert_cast_to_mp4_progress env0 true false cexLines).selIdx = [0] from rfl,
    show (convert_cast_to_mp4_progress env0 true false cexLines).nOutputs = 2 from rfl]
  decide

lemma workerBody_ok_record (env : WorkerEnv σ Img) (lines : List Line)
    (o : WorkerOut Img) (h : workerBody env lines = .ok o) :
    o.finalRecord = ⟨1, true, "No frames generated!"⟩ ∨
      o.finalRecord = ⟨1, true, "Done"⟩ := by
  unfold workerBody at h
  split at h
  · cases h
  · split at h
    · cases h
    · split at h
      · cases h
      · split at h
        · cases h
        · split at h
          · cases h
          · split at h
            · cases h
            · split at h
              · cases h
              · dsimp only at h
                split at h
                · cases h
                · split at h
                  · cases h
                    exact Or.inl rfl
                  · split at h
                    · cases h
                    · cases h
                      exact Or.inr rfl

/-- C8 (amended): any exception escaping the worker body is caught by
the outer handler, which writes the progress record
`{progress 0, done false, text "Error: <msg>"}` and returns cleanly; a
body that completes writes `Done` or `No frames generated!`.  Failures
swallowed by the per-frame handler (rasterize/feed errors) do not
produce a Failed record at all — the job continues (see the
counterexample). -/
theorem C8_worker_failure (σ Img : Type) (env : WorkerEnv σ Img) (lines : List Line) :
    (∀ e, workerBody env lines = .error e →
      convert_cast_to_mp4_progress env true false lines =
        { finalRecord := ⟨0, false, "Error: " ++ e⟩, images := [], timestamps := [],
          selIdx := [], nOutputs := 0, fps := none, innerErrors := [] }) ∧
    (∀ o, workerBody env lines = .ok o →
      convert_cast_to_mp4_progress env true false lines = o ∧
      (o.finalRecord = ⟨1, true, "No frames generated!"⟩ ∨
        o.finalRecord = ⟨1, true, "Done"⟩)) := by
  constructor
  · intro e h
    unfold convert_cast_to_mp4_progress
    rw [h]
    rfl
  · intro o h
    refine ⟨?_, workerBody_ok_record env lines o h⟩
    unfold convert_cast_to_mp4_progress
    rw [h]
    rfl

/-- C8 witness: a failing encoder makes the body fail, and the outer
handler records the error text and returns the error outcome cleanly. -/
theorem C8_worker_failure_witness :
    convert_cast_to_mp4_progress envEncFail true false [exHdr, evLine 0 "o" "a"] =
      { finalRecord := ⟨0, false, "Error: encode boom"⟩, images := [], timestamps := [],
        selIdx := [], nOutputs := 0, fps := none, innerErrors := [] } :=
  (C8_worker_failure String String envEncFail [exHdr, evLine 0 "o" "a"]).1
    "encode boom" rfl

/-- C8 counterexample: when every rasterize call fails, the raised
failures are swallowed by the per-frame handler (ghost log ["boom2"])
and the job still completes with `done = true` and text
"No frames generated!" — no Failed record carrying the error text is
ever written. -/
theorem C8_cex :
    (convert_cast_to_mp4_progress envFail true false [exHdr, evLine 0 "o" "a"]).innerErrors =
      ["boom2"] ∧
    (convert_cast_to_mp4_progress envFail true false [exHdr, evLine 0 "o" "a"]).finalRecord =
      ⟨1, true, "No frames generated!"⟩ :=
  ⟨rfl, rfl⟩

end ESV
